import Mathlib

/-!
Verification development for the session/message synchronizer of the NDASW_UI
chat client (Angular).  The synchronizer (`SessionService`) owns in-memory
session and message collections, mutates them optimistically, and reconciles
them with a remote store (`DatabaseService`).  The repository contains two
revisions of the synchronizer: the reference revision with a
`pendingSessionCreations` set (modelled by `createSessionSync`,
`createSessionRemoteDone`, `addMessageSync`, `addMessageRemote`, ...) and a
localStorage-fallback revision (its database-path `createSession` sync phase is
modelled by `createSessionDbSync`).

The JavaScript event loop is single threaded: every synchronous block of the
source runs atomically, and each asynchronous HTTP response handler runs later
as its own atomic block.  Each such block is embedded as a pure function from
synchronizer state (plus the response data it consumes) to synchronizer state.
Timestamps (`Date.now()`, `new Date()`) are modelled as `Nat` parameters, and
client-generated ids (`generateId()`) as `String` parameters.
-/

namespace NdaswUi

/-- `"user" | "assistant"` role of a chat message. -/
inductive Role
  | user
  | assistant
deriving DecidableEq, Repr

/-- `"up" | "down"` rating values; the absent (`null`/`undefined`) rating is
`Option.none` at use sites. -/
inductive Rating
  | up
  | down
deriving DecidableEq, Repr

/-- `ChatMessage` from `chat.models.ts`.  The optional `rating` field is
`Option Rating` (`undefined`/`null` both become `none`). -/
structure ChatMessage where
  id : String
  role : Role
  content : String
  timestamp : Nat
  rating : Option Rating
deriving DecidableEq, Repr

/-- `ChatSession` from `chat.models.ts`. -/
structure ChatSession where
  id : String
  title : String
  messages : List ChatMessage
  selectedDocumentIds : List String
  createdAt : Nat
  updatedAt : Nat
deriving DecidableEq, Repr

/-- The observable state owned by `SessionService`: the `sessionsSubject`
value, the `currentSessionSubject` value, the `messagesCache` map and the
`pendingSessionCreations` set (association list / list with set operations,
mirroring JS `Map` and `Set`). -/
structure SessionState where
  sessions : List ChatSession
  currentSession : Option ChatSession
  messagesCache : List (String × List ChatMessage)
  pendingSessionCreations : List String
deriving DecidableEq, Repr

/-- JS `Map.get` on the messages cache. -/
def cacheGet (c : List (String × List ChatMessage)) (k : String) : Option (List ChatMessage) :=
  match c with
  | [] => none
  | (k2, v) :: rest => if k2 = k then some v else cacheGet rest k

/-- JS `Map.set` on the messages cache. -/
def cacheSet (c : List (String × List ChatMessage)) (k : String) (v : List ChatMessage) :
    List (String × List ChatMessage) :=
  match c with
  | [] => [(k, v)]
  | (k2, v2) :: rest => if k2 = k then (k, v) :: rest else (k2, v2) :: cacheSet rest k v

/-- JS `Map.delete` on the messages cache. -/
def cacheDelete (c : List (String × List ChatMessage)) (k : String) :
    List (String × List ChatMessage) :=
  c.filter (fun kv => kv.1 != k)

/-- JS `Set.add` on the pending-creations set. -/
def setAdd (s : List String) (x : String) : List String :=
  if x ∈ s then s else x :: s

/-- JS `Set.delete` on the pending-creations set. -/
def setDelete (s : List String) (x : String) : List String :=
  s.filter (fun y => y != x)

/-- JS `Set.has` on the pending-creations set. -/
def setHas (s : List String) (x : String) : Bool :=
  s.contains x

/-- Whether `pat` occurs at the start of `cs`. -/
def charsStartWith : List Char → List Char → Bool
  | [], _ => true
  | _ :: _, [] => false
  | p :: ps, c :: cs => p == c && charsStartWith ps cs

/-- Whether `pat` occurs anywhere in `cs`. -/
def charsContain (pat : List Char) : List Char → Bool
  | [] => pat.isEmpty
  | c :: rest => charsStartWith pat (c :: rest) || charsContain pat rest

/-- JS `String.includes`. -/
def strIncludes (s pat : String) : Bool :=
  charsContain pat.data s.data

/-- An HTTP failure as the Angular `HttpErrorResponse` is consumed by the
synchronizer: its `status` code and the `error.error?.message || ''` string. -/
structure HttpError where
  status : Nat
  message : String
deriving DecidableEq, Repr

def pkConstraintText : String := "PRIMARY KEY constraint"

def duplicateKeyText : String := "duplicate key"

def alreadyExistsText : String := "already exists"

def fkViolationText : String := "FOREIGN KEY"

def sessionIdColumnText : String := "SessionId"

def newChatTitle : String := "New Chat"

def emptyText : String := ""

/-- The duplicate-key test of `createSession`'s error handler in the reference
revision (`part_009` lines 110-113): message substrings only. -/
def isDuplicateCreateError (e : HttpError) : Bool :=
  strIncludes e.message pkConstraintText || strIncludes e.message duplicateKeyText
    || strIncludes e.message alreadyExistsText

/-- The duplicate-key test of `ensureSessionExists`'s `catchError`
(`part_009` lines 166-169): status 409 or message substrings. -/
def isDuplicateEnsureError (e : HttpError) : Bool :=
  e.status == 409 || strIncludes e.message alreadyExistsText
    || strIncludes e.message pkConstraintText || strIncludes e.message duplicateKeyText

/-- The foreign-key-violation test of `addMessage`'s error handler
(`part_009` line 330). -/
def fkSignature (e : HttpError) : Bool :=
  strIncludes e.message fkViolationText || strIncludes e.message sessionIdColumnText

/-- JS `t || d` for an optional string (empty string is falsy). -/
def jsOrString (t : Option String) (d : String) : String :=
  match t with
  | none => d
  | some s => if s = emptyText then d else s

/-- Synchronous part of `setCurrentSession` (`part_009` lines 183-199): if the
session is non-null and its messages are not cached, a message fetch is issued
and the current-session subject is untouched for now (it is only published from
the fetch callback, a later event); otherwise the value is published at once. -/
def setCurrentSessionSync (st : SessionState) (session : Option ChatSession) : SessionState :=
  match session with
  | some s =>
    if (cacheGet st.messagesCache s.id).isSome then { st with currentSession := some s }
    else st
  | none => { st with currentSession := none }

/-- The locally synthesized session of `createSession` (`part_009` lines
77-84). -/
def mkLocalSession (sessionId : String) (title : Option String)
    (selectedDocumentIds : Option (List String)) (now : Nat) : ChatSession :=
  { id := sessionId
    title := jsOrString title newChatTitle
    messages := []
    selectedDocumentIds := selectedDocumentIds.getD []
    createdAt := now
    updatedAt := now }

/-- Synchronous phase of `createSession` in the reference revision (`part_009`
lines 75-124): synthesize a local session, prepend it to the sessions list when
its id is not already present, add the id to `pendingSessionCreations`, issue
the remote create call (its handlers are `createSessionRemoteDone`, a later
event), run `setCurrentSession`, and return the session to the caller. -/
def createSessionSync (st : SessionState) (sessionId : String) (title : Option String)
    (selectedDocumentIds : Option (List String)) (now : Nat) : SessionState × ChatSession :=
  let session := mkLocalSession sessionId title selectedDocumentIds now
  let st1 :=
    if st.sessions.any (fun s => s.id == sessionId) then st
    else { st with sessions := session :: st.sessions }
  let st2 := { st1 with pendingSessionCreations := setAdd st1.pendingSessionCreations sessionId }
  (setCurrentSessionSync st2 (some session), session)

/-- Outcome of the remote `DatabaseService.createSession` call. -/
inductive CreateOutcome
  | ok (created : ChatSession)
  | err (e : HttpError)
deriving DecidableEq, Repr

/-- Response handler of `createSession`'s remote call (`part_009` lines
94-121), applied to the synchronizer state at the time the response arrives.
On success the pending flag is cleared, the local entry is replaced by the
server session merged with the caller's `selectedDocumentIds`, and the merged
session becomes current; on any error the pending flag is cleared and the
locally created session stays (duplicate-key errors differ from hard failures
only in what is logged). -/
def createSessionRemoteDone (st : SessionState) (sessionId : String)
    (localSession : ChatSession) (selectedDocumentIds : Option (List String))
    (o : CreateOutcome) : SessionState :=
  match o with
  | .ok created =>
    let st1 := { st with pendingSessionCreations := setDelete st.pendingSessionCreations sessionId }
    let sessionWithDocs := { created with selectedDocumentIds := selectedDocumentIds.getD [] }
    let st2 := { st1 with
      sessions := st1.sessions.map (fun s => if s.id = sessionId then sessionWithDocs else s) }
    setCurrentSessionSync st2 (some sessionWithDocs)
  | .err e =>
    let st1 := { st with pendingSessionCreations := setDelete st.pendingSessionCreations sessionId }
    if isDuplicateCreateError e then setCurrentSessionSync st1 (some localSession)
    else setCurrentSessionSync st1 (some localSession)

/-- Synchronous phase of `createSession` in the localStorage-fallback revision
(`src/app/services/session.service.ts` lines 168-215) when the database path is
taken: the session object is synthesized and returned immediately while the
remote create call is issued; the sessions list and the current-session subject
are only touched from the response handlers (later events). -/
def createSessionDbSync (st : SessionState) (sessionId : String) (title : Option String)
    (selectedDocumentIds : Option (List String)) (now : Nat) : SessionState × ChatSession :=
  let session := mkLocalSession sessionId title selectedDocumentIds now
  (st, session)

/-! ### Basic frame lemmas -/

theorem setCurrentSessionSync_sessions (st : SessionState) (x : Option ChatSession) :
    (setCurrentSessionSync st x).sessions = st.sessions := by
  cases x with
  | none => rfl
  | some s =>
    simp only [setCurrentSessionSync]
    split <;> rfl

theorem setCurrentSessionSync_pending (st : SessionState) (x : Option ChatSession) :
    (setCurrentSessionSync st x).pendingSessionCreations = st.pendingSessionCreations := by
  cases x with
  | none => rfl
  | some s =>
    simp only [setCurrentSessionSync]
    split <;> rfl

theorem setCurrentSessionSync_cache (st : SessionState) (x : Option ChatSession) :
    (setCurrentSessionSync st x).messagesCache = st.messagesCache := by
  cases x with
  | none => rfl
  | some s =>
    simp only [setCurrentSessionSync]
    split <;> rfl

theorem mem_setAdd (s : List String) (x : String) : x ∈ setAdd s x := by
  unfold setAdd
  split
  · assumption
  · exact List.mem_cons_self x s

theorem not_mem_setDelete (s : List String) (x : String) : x ∉ setDelete s x := by
  unfold setDelete
  intro h
  rcases List.mem_filter.mp h with ⟨-, hx⟩
  simp at hx

/-! ### C1: the pending-creation flag lifecycle of `createSession` -/

/-- C1: every `createSession` call adds the generated session id to
`pendingSessionCreations` at the moment the remote create call is issued, and
every possible outcome of that call (success, duplicate-key error, or any other
error) removes it from whatever state the response finds, exactly once — the
handler's pending set is exactly the previous one with the id deleted, so no
execution path leaves the id pending forever and none removes it twice. -/
theorem createSession_pending_lifecycle (st : SessionState) (sessionId : String)
    (title : Option String) (selectedDocumentIds : Option (List String)) (now : Nat) :
    sessionId ∈ ((createSessionSync st sessionId title selectedDocumentIds now).1).pendingSessionCreations
    ∧ ∀ (stResp : SessionState) (localSession : ChatSession) (o : CreateOutcome),
        ((createSessionRemoteDone stResp sessionId localSession selectedDocumentIds o).pendingSessionCreations
            = setDelete stResp.pendingSessionCreations sessionId)
        ∧ sessionId ∉ (createSessionRemoteDone stResp sessionId localSession selectedDocumentIds o).pendingSessionCreations := by
  constructor
  · show sessionId ∈ (setCurrentSessionSync _ _).pendingSessionCreations
    rw [setCurrentSessionSync_pending]
    exact mem_setAdd _ _
  · intro stResp localSession o
    have hpend : (createSessionRemoteDone stResp sessionId localSession selectedDocumentIds o).pendingSessionCreations
        = setDelete stResp.pendingSessionCreations sessionId := by
      cases o with
      | ok created =>
        show (setCurrentSessionSync _ _).pendingSessionCreations = _
        rw [setCurrentSessionSync_pending]
      | err e =>
        simp only [createSessionRemoteDone]
        split <;> rw [setCurrentSessionSync_pending]
    exact ⟨hpend, hpend ▸ not_mem_setDelete _ _⟩

/-! ### C2: duplicate-key failure of the remote create is idempotent success -/

/-- C2: when the remote create call of `createSession` fails with a
duplicate-key signature (HTTP 409 or a primary-key/duplicate/already-exists
message), the local sessions collection afterwards contains exactly one session
with the generated id — the locally created one, unchanged — and the id is no
longer in `pendingSessionCreations`.  (The error handler treats every failure
this way, so in particular each duplicate-key signature.) -/
theorem createSession_duplicate_key_idempotent (st : SessionState) (sessionId : String)
    (title : Option String) (selectedDocumentIds : Option (List String)) (now : Nat)
    (e : HttpError)
    (hfresh : ∀ s ∈ st.sessions, s.id ≠ sessionId)
    (_hdup : e.status = 409 ∨ isDuplicateCreateError e = true) :
    let sync := createSessionSync st sessionId title selectedDocumentIds now
    let stFinal := createSessionRemoteDone sync.1 sessionId sync.2 selectedDocumentIds (.err e)
    stFinal.sessions.filter (fun s => s.id == sessionId) = [sync.2]
    ∧ sessionId ∉ stFinal.pendingSessionCreations := by
  intro sync stFinal
  have hany : st.sessions.any (fun s => s.id == sessionId) = false := by
    rw [List.any_eq_false]
    intro s hs
    simpa using hfresh s hs
  have hsync1 : sync.1.sessions = sync.2 :: st.sessions := by
    show (createSessionSync st sessionId title selectedDocumentIds now).1.sessions = _
    simp only [createSessionSync]
    rw [setCurrentSessionSync_sessions]
    simp only [hany, Bool.false_eq_true, if_false]
    rfl
  have hfinal : stFinal.sessions = sync.1.sessions := by
    show (createSessionRemoteDone _ _ _ _ _).sessions = _
    simp only [createSessionRemoteDone]
    split <;> rw [setCurrentSessionSync_sessions]
  constructor
  · rw [hfinal, hsync1]
    have hid : sync.2.id = sessionId := rfl
    rw [List.filter_cons]
    simp only [hid, beq_self_eq_true, if_true]
    have : st.sessions.filter (fun s => s.id == sessionId) = [] := by
      rw [List.filter_eq_nil_iff]
      intro s hs
      simpa using hfresh s hs
    rw [this]
  · have := (createSession_pending_lifecycle st sessionId title selectedDocumentIds now).2
      sync.1 sync.2 (.err e)
    exact this.2

def sidW : String := "s1"

def dupErrW : HttpError := { status := 409, message := pkConstraintText }

/-- Witness for C2 at a concrete input: a duplicate-key 409 response to the
create of session `s1` on an initially empty state. -/
theorem createSession_duplicate_key_idempotent_witness :
    (∀ s ∈ (SessionState.mk [] none [] []).sessions, s.id ≠ sidW)
    ∧ ((createSessionRemoteDone
          (createSessionSync (SessionState.mk [] none [] []) sidW none none 0).1 sidW
          (createSessionSync (SessionState.mk [] none [] []) sidW none none 0).2 none
          (.err dupErrW)).sessions.filter (fun s => s.id == sidW)
        = [(createSessionSync (SessionState.mk [] none [] []) sidW none none 0).2]) := by
  refine ⟨by intro s hs; simp at hs, ?_⟩
  exact (createSession_duplicate_key_idempotent (SessionState.mk [] none [] []) sidW none none 0
    dupErrW (by intro s hs; simp at hs) (Or.inl rfl)).1

/-! ### C5: `createSession` returns synchronously with the session prepended -/

def sidC5 : String := "s5"

def sidW5 : String := "s5w"

/-- C5 counterexample: in the localStorage-fallback revision
(`src/app/services/session.service.ts` lines 168-215), the database-path
`createSession` returns the synthesized session synchronously but does not add
it to the local sessions list — the list is only updated from the remote
response handler.  Concretely, on an empty state the call returns a session
with the generated id while the sessions list is still empty, refuting the
claim that the session has been prepended at the moment the call returns. -/
theorem createSession_prepend_counterexample :
    ((createSessionDbSync (SessionState.mk [] none [] []) sidC5 none none 0).2).id = sidC5
    ∧ ((createSessionDbSync (SessionState.mk [] none [] []) sidC5 none none 0).1).sessions = [] :=
  ⟨rfl, rfl⟩

/-- C5 (amended): in the reference revision (`part_009` lines 75-124),
`createSession` synchronously — before any remote response — returns a session
carrying the freshly generated id, and at that same moment that session has
been prepended to the front of the local sessions list; in the
localStorage-fallback revision the session is returned synchronously but only
enters the list when the remote response is processed. -/
theorem createSession_sync_prepends (st : SessionState) (sessionId : String)
    (title : Option String) (selectedDocumentIds : Option (List String)) (now : Nat)
    (hfresh : ∀ s ∈ st.sessions, s.id ≠ sessionId) :
    ((createSessionSync st sessionId title selectedDocumentIds now).2).id = sessionId
    ∧ ((createSessionSync st sessionId title selectedDocumentIds now).1).sessions
        = (createSessionSync st sessionId title selectedDocumentIds now).2 :: st.sessions := by
  have hany : st.sessions.any (fun s => s.id == sessionId) = false := by
    rw [List.any_eq_false]
    intro s hs
    simpa using hfresh s hs
  refine ⟨rfl, ?_⟩
  simp only [createSessionSync]
  rw [setCurrentSessionSync_sessions]
  simp only [hany, Bool.false_eq_true, if_false]

/-- Witness for C5 (amended) at a concrete input: creating session `s5w` on an
empty state prepends it. -/
theorem createSession_sync_prepends_witness :
    (∀ s ∈ (SessionState.mk [] none [] []).sessions, s.id ≠ sidW5)
    ∧ ((createSessionSync (SessionState.mk [] none [] []) sidW5 none none 0).1).sessions
        = (createSessionSync (SessionState.mk [] none [] []) sidW5 none none 0).2
            :: (SessionState.mk [] none [] []).sessions := by
  refine ⟨?_, ?_⟩
  · intro s hs
    simp at hs
  · exact (createSession_sync_prepends (SessionState.mk [] none [] []) sidW5 none none 0
      (by intro s hs; simp at hs)).2

/-! ### `updateMessageRating` (`part_009` lines 405-445, identically
`src/app/services/session.service.ts` lines 539-588) -/

/-- Per-message part of `updateMessageRating`: the matched message's rating
becomes `rating || undefined` (`null` and `undefined` are both `none`). -/
def setMessageRating (messageId : String) (rating : Option Rating) (m : ChatMessage) : ChatMessage :=
  if m.id = messageId then { m with rating := rating } else m

/-- Per-session part of `updateMessageRating`: the matched session's messages
are mapped through `setMessageRating` and its `updatedAt` is set to the current
time; other sessions are returned unchanged. -/
def updateRatingInSession (sessionId messageId : String) (rating : Option Rating) (now : Nat)
    (s : ChatSession) : ChatSession :=
  if s.id = sessionId then
    { s with messages := s.messages.map (setMessageRating messageId rating), updatedAt := now }
  else s

/-- `updateMessageRating`: update the local collections immediately and issue
the remote rating update, whose handlers only log (no state effect on either
outcome); the current session is republished when it is the one modified. -/
def updateMessageRating (st : SessionState) (sessionId messageId : String)
    (rating : Option Rating) (now : Nat) : SessionState :=
  let sessions := st.sessions.map (updateRatingInSession sessionId messageId rating now)
  let current :=
    match st.currentSession with
    | some c =>
      if c.id = sessionId then
        match sessions.find? (fun s => s.id == sessionId) with
        | some u => some u
        | none => some c
      else some c
    | none => none
  { st with sessions := sessions, currentSession := current }

theorem mem_zip_map {α β : Type} (f : α → β) (l : List α) :
    ∀ p ∈ (l.map f).zip l, p.1 = f p.2 := by
  induction l with
  | nil => intro p hp; simp at hp
  | cons a t ih =>
    intro p hp
    rw [List.map_cons, List.zip_cons_cons] at hp
    rcases List.mem_cons.mp hp with h | h
    · subst h
      rfl
    · exact ih p h

/-! ### C10: `updateMessageRating` touches exactly the rated message's rating
and its session's `updatedAt` -/

/-- C10: `updateMessageRating` maps the sessions list position by position:
every session whose id differs is returned unchanged; the session with the
target id keeps its id, title, creation time and selected documents, gets
`updatedAt := now` (with no condition on the previous rating, so also when the
new rating equals the old one), and its messages are mapped position by
position with only the target message's `rating` field replaced.  Since the
display order is by `updatedAt` descending, rating a message can move its
session in that order. -/
theorem updateMessageRating_frame (st : SessionState) (sessionId messageId : String)
    (rating : Option Rating) (now : Nat) :
    (updateMessageRating st sessionId messageId rating now).sessions.length = st.sessions.length
    ∧ ∀ p ∈ (updateMessageRating st sessionId messageId rating now).sessions.zip st.sessions,
        (p.2.id ≠ sessionId → p.1 = p.2)
        ∧ (p.2.id = sessionId →
            p.1.id = p.2.id ∧ p.1.title = p.2.title ∧ p.1.createdAt = p.2.createdAt
            ∧ p.1.selectedDocumentIds = p.2.selectedDocumentIds ∧ p.1.updatedAt = now
            ∧ p.1.messages.length = p.2.messages.length
            ∧ ∀ q ∈ p.1.messages.zip p.2.messages,
                (q.2.id ≠ messageId → q.1 = q.2)
                ∧ (q.2.id = messageId → q.1 = { q.2 with rating := rating })) := by
  have hsess : (updateMessageRating st sessionId messageId rating now).sessions
      = st.sessions.map (updateRatingInSession sessionId messageId rating now) := rfl
  constructor
  · rw [hsess]
    exact List.length_map _ _
  · intro p hp
    rw [hsess] at hp
    have hp1 : p.1 = updateRatingInSession sessionId messageId rating now p.2 :=
      mem_zip_map _ _ p hp
    constructor
    · intro hne
      rw [hp1, updateRatingInSession, if_neg hne]
    · intro heq
      rw [hp1, updateRatingInSession, if_pos heq]
      refine ⟨rfl, rfl, rfl, rfl, rfl, List.length_map _ _, ?_⟩
      intro q hq
      have hq1 : q.1 = setMessageRating messageId rating q.2 := by
        have : q ∈ (p.2.messages.map (setMessageRating messageId rating)).zip p.2.messages := hq
        exact mem_zip_map _ _ q this
      constructor
      · intro hne
        rw [hq1, setMessageRating, if_neg hne]
      · intro heq2
        rw [hq1, setMessageRating, if_pos heq2]

def sidT : String := "sA"

def midT : String := "mA"

def contT : String := "hi"

def titleT : String := "t"

def msgT : ChatMessage :=
  { id := midT, role := Role.assistant, content := contT, timestamp := 3, rating := none }

def sessT : ChatSession :=
  { id := sidT, title := titleT, messages := [msgT], selectedDocumentIds := [], createdAt := 1,
    updatedAt := 2 }

def stW10 : SessionState :=
  { sessions := [sessT], currentSession := none, messagesCache := [],
    pendingSessionCreations := [] }

def pW10 : ChatSession × ChatSession :=
  ({ sessT with updatedAt := 7, messages := [{ msgT with rating := some Rating.up }] }, sessT)

/-- Witness for C10 at a concrete input: rating message `mA` of session `sA`
with a thumbs-up at time 7. -/
theorem updateMessageRating_frame_witness :
    pW10 ∈ (updateMessageRating stW10 sidT midT (some Rating.up) 7).sessions.zip stW10.sessions
    ∧ pW10.1.updatedAt = 7 := by
  have hmem : pW10 ∈ (updateMessageRating stW10 sidT midT (some Rating.up) 7).sessions.zip
      stW10.sessions := by decide
  have h := (updateMessageRating_frame stW10 sidT midT (some Rating.up) 7).2 pW10 hmem
  exact ⟨hmem, (h.2 (by decide)).2.2.2.2.1⟩

/-! ### C8: rating toggle semantics -/

def sidB : String := "sB"

def midB : String := "mB"

def msgB : ChatMessage :=
  { id := midB, role := Role.assistant, content := contT, timestamp := 0, rating := none }

def sessB : ChatSession :=
  { id := sidB, title := titleT, messages := [msgB], selectedDocumentIds := [], createdAt := 0,
    updatedAt := 0 }

def stW8 : SessionState :=
  { sessions := [sessB], currentSession := none, messagesCache := [],
    pendingSessionCreations := [] }

/-- C8 counterexample: `updateMessageRating` itself stores whatever rating it
is handed — it has no toggle logic — so calling it twice in a row with the same
non-null rating leaves the message rated `up`, not `null`. -/
theorem updateMessageRating_double_same_counterexample :
    ((updateMessageRating (updateMessageRating stW8 sidB midB (some Rating.up) 1) sidB midB
        (some Rating.up) 2).sessions.map (fun s => s.messages.map (fun m => m.rating)))
      = [[some Rating.up]] := by
  decide

/-- JS `Map.get` on the chat component's `messageRatings` map. -/
def ratingsGet (m : List (String × Option Rating)) (k : String) : Option (Option Rating) :=
  match m with
  | [] => none
  | (k2, v) :: rest => if k2 = k then some v else ratingsGet rest k

/-- JS `Map.set` on the chat component's `messageRatings` map. -/
def ratingsSet (m : List (String × Option Rating)) (k : String) (v : Option Rating) :
    List (String × Option Rating) :=
  match m with
  | [] => [(k, v)]
  | (k2, v2) :: rest => if k2 = k then (k, v) :: rest else (k2, v2) :: ratingsSet rest k v

/-- `ChatComponent.rateMessage` (`chat.component.ts` lines 311-331): the toggle
lives here — if the component's `messageRatings` map already records the
clicked rating for this message, the new rating is `null` and the map entry is
cleared; otherwise the clicked rating is stored.  Either way the result is
forwarded to `SessionService.updateMessageRating` for the current session.
Returns the updated component map and synchronizer state. -/
def rateMessage (ratings : List (String × Option Rating)) (st : SessionState)
    (currentSessionId messageId : String) (r : Rating) (now : Nat) :
    List (String × Option Rating) × SessionState :=
  if ratingsGet ratings messageId = some (some r) then
    (ratingsSet ratings messageId none,
      updateMessageRating st currentSessionId messageId none now)
  else
    (ratingsSet ratings messageId (some r),
      updateMessageRating st currentSessionId messageId (some r) now)

theorem ratingsGet_set_self (m : List (String × Option Rating)) (k : String) (v : Option Rating) :
    ratingsGet (ratingsSet m k v) k = some v := by
  induction m with
  | nil => simp [ratingsSet, ratingsGet]
  | cons kv rest ih =>
    by_cases h : kv.1 = k
    · simp [ratingsSet, ratingsGet, h]
    · simp [ratingsSet, ratingsGet, h, ih]

theorem updateMessageRating_rating_value (st : SessionState) (sessionId messageId : String)
    (rating : Option Rating) (now : Nat) :
    ∀ s ∈ (updateMessageRating st sessionId messageId rating now).sessions, s.id = sessionId →
      ∀ m ∈ s.messages, m.id = messageId → m.rating = rating := by
  intro s hs hsid m hm hmid
  have hsess : (updateMessageRating st sessionId messageId rating now).sessions
      = st.sessions.map (updateRatingInSession sessionId messageId rating now) := rfl
  rw [hsess] at hs
  rcases List.mem_map.mp hs with ⟨s0, hs0, rfl⟩
  by_cases h : s0.id = sessionId
  · rw [updateRatingInSession, if_pos h] at hm
    have hm2 : m ∈ s0.messages.map (setMessageRating messageId rating) := hm
    rcases List.mem_map.mp hm2 with ⟨m0, hm0, rfl⟩
    by_cases h2 : m0.id = messageId
    · rw [setMessageRating, if_pos h2]
    · rw [setMessageRating, if_neg h2] at hmid
      exact absurd hmid h2
  · rw [updateRatingInSession, if_neg h] at hsid
    exact absurd hsid h

/-- C8 (amended): the toggle-off behavior belongs to the chat component, not to
`updateMessageRating`.  `ChatComponent.rateMessage` clears the rating when the
same rating is re-selected: after two `rateMessage` calls in a row with the
same rating (starting from a component map that does not already record that
rating for the message), the second call invokes `updateMessageRating` with
`null`, leaving the message's rating `none`; `updateMessageRating` itself
unconditionally stores the rating it is given. -/
theorem rateMessage_twice_same_clears (ratings : List (String × Option Rating))
    (st : SessionState) (currentSessionId messageId : String) (r : Rating) (now1 now2 : Nat)
    (hfirst : ratingsGet ratings messageId ≠ some (some r)) :
    ∀ s ∈ ((rateMessage (rateMessage ratings st currentSessionId messageId r now1).1
              (rateMessage ratings st currentSessionId messageId r now1).2
              currentSessionId messageId r now2).2).sessions,
      s.id = currentSessionId → ∀ m ∈ s.messages, m.id = messageId → m.rating = none := by
  have h1 : (rateMessage ratings st currentSessionId messageId r now1).1
      = ratingsSet ratings messageId (some r) := by
    rw [rateMessage, if_neg hfirst]
  have h2cond : ratingsGet (rateMessage ratings st currentSessionId messageId r now1).1 messageId
      = some (some r) := by
    rw [h1]
    exact ratingsGet_set_self ratings messageId (some r)
  have h2 : (rateMessage (rateMessage ratings st currentSessionId messageId r now1).1
        (rateMessage ratings st currentSessionId messageId r now1).2
        currentSessionId messageId r now2).2
      = updateMessageRating (rateMessage ratings st currentSessionId messageId r now1).2
          currentSessionId messageId none now2 := by
    rw [rateMessage, if_pos h2cond]
  rw [h2]
  exact updateMessageRating_rating_value _ currentSessionId messageId none now2

/-- Witness for C8 (amended) at a concrete input: clicking thumbs-up twice on
message `mB` of session `sB` from a fresh component map leaves its rating
cleared. -/
theorem rateMessage_twice_same_clears_witness :
    (ratingsGet [] midB ≠ some (some Rating.up))
    ∧ ∀ s ∈ ((rateMessage (rateMessage [] stW8 sidB midB Rating.up 1).1
              (rateMessage [] stW8 sidB midB Rating.up 1).2 sidB midB Rating.up 2).2).sessions,
        s.id = sidB → ∀ m ∈ s.messages, m.id = midB → m.rating = none :=
  ⟨by decide, rateMessage_twice_same_clears [] stW8 sidB midB Rating.up 1 2 (by decide)⟩

/-! ### C6: `loadSessionsFromDatabase` publishes once, after all message
fetches settle -/

/-- Session record of `GET /sessions/{userId}` as consumed by
`DatabaseService.mapSessionFromApi` (`part_008` lines 270-279); timestamps are
modelled as `Nat`. -/
structure SessionApiResponse where
  sessionId : String
  userId : String
  title : String
  selectedDocumentIds : List String
  createdAt : Nat
  updatedAt : Nat
deriving DecidableEq, Repr

/-- `DatabaseService.mapSessionFromApi`: the mapped session starts with an
empty messages array. -/
def mapSessionFromApi (a : SessionApiResponse) : ChatSession :=
  { id := a.sessionId
    title := a.title
    messages := []
    selectedDocumentIds := a.selectedDocumentIds
    createdAt := a.createdAt
    updatedAt := a.updatedAt }

/-- Outcome of one `getSessionMessages` fetch inside
`loadSessionsFromDatabase`. -/
inductive MsgFetchOutcome
  | ok (msgs : List ChatMessage)
  | err
deriving DecidableEq, Repr

/-- One per-session message observable of `loadSessionsFromDatabase`
(`part_009` lines 45-56): on success the `tap` stores the messages in the
cache and assigns them into the session object; the `catchError` of a failed
fetch emits an empty array instead and leaves the session object untouched. -/
def loadMessagesStep (cache : List (String × List ChatMessage)) (s : ChatSession)
    (o : MsgFetchOutcome) : (List (String × List ChatMessage)) × ChatSession :=
  match o with
  | .ok msgs => (cacheSet cache s.id msgs, { s with messages := msgs })
  | .err => (cache, s)

/-- Settling of all per-session message observables (the `forkJoin` inputs). -/
def loadSessionsSettle (cache : List (String × List ChatMessage)) :
    List (ChatSession × MsgFetchOutcome) → (List (String × List ChatMessage)) × List ChatSession
  | [] => (cache, [])
  | (s, o) :: rest =>
    let step := loadMessagesStep cache s o
    let settled := loadSessionsSettle step.1 rest
    (settled.1, step.2 :: settled.2)

/-- `loadSessionsFromDatabase` (`part_009` lines 35-73) in the run where the
session-list fetch succeeds: with no sessions, an empty list is published at
once; otherwise the populated sessions list is published from the `forkJoin`
completion handler, after every per-session message fetch has settled.  The
second component collects the values published to `sessionsSubject` during the
run, in order. -/
def loadSessionsFromDatabaseOk (st : SessionState) (api : List SessionApiResponse)
    (outcomes : List MsgFetchOutcome) : SessionState × List (List ChatSession) :=
  let fetched := api.map mapSessionFromApi
  if fetched.isEmpty then ({ st with sessions := [] }, [[]])
  else
    let settled := loadSessionsSettle st.messagesCache (fetched.zip outcomes)
    ({ st with sessions := settled.2, messagesCache := settled.1 }, [settled.2])

theorem loadMessagesStep_snd (cache : List (String × List ChatMessage)) (s : ChatSession)
    (o : MsgFetchOutcome) : (loadMessagesStep cache s o).2 = (loadMessagesStep [] s o).2 := by
  cases o <;> rfl

theorem loadSessionsSettle_snd (pairs : List (ChatSession × MsgFetchOutcome)) :
    ∀ cache, (loadSessionsSettle cache pairs).2
      = pairs.map (fun p => (loadMessagesStep [] p.1 p.2).2) := by
  induction pairs with
  | nil => intro cache; rfl
  | cons p rest ih =>
    intro cache
    obtain ⟨s, o⟩ := p
    simp only [loadSessionsSettle, List.map_cons]
    rw [ih, loadMessagesStep_snd]

theorem mem_zip_right {α β : Type} {l₁ : List α} {l₂ : List β} :
    ∀ p ∈ l₁.zip l₂, p.2 ∈ l₂ := by
  induction l₁ generalizing l₂ with
  | nil => intro p hp; simp at hp
  | cons a t ih =>
    intro p hp
    cases l₂ with
    | nil => simp at hp
    | cons b t2 =>
      rw [List.zip_cons_cons] at hp
      rcases List.mem_cons.mp hp with h | h
      · subst h
        exact List.mem_cons_self _ _
      · exact List.mem_cons_of_mem _ (ih p h)

/-- C6: in every `loadSessionsFromDatabase` run whose session-list fetch
succeeds with `n` sessions, the sessions observable is published exactly once,
and its published value is the state's final sessions list, computed only from
the settled results of all `n` message fetches: every fetched session is kept,
in order; a session whose fetch succeeded carries the fetched messages, and a
session whose fetch failed is still present with an empty messages array. -/
theorem loadSessions_publishes_once_after_settle (st : SessionState)
    (api : List SessionApiResponse) (outcomes : List MsgFetchOutcome)
    (hlen : outcomes.length = api.length) :
    (loadSessionsFromDatabaseOk st api outcomes).2
      = [(loadSessionsFromDatabaseOk st api outcomes).1.sessions]
    ∧ (loadSessionsFromDatabaseOk st api outcomes).1.sessions.length = api.length
    ∧ ∀ t ∈ ((loadSessionsFromDatabaseOk st api outcomes).1.sessions.zip
          ((api.map mapSessionFromApi).zip outcomes)),
        (∀ msgs, t.2.2 = MsgFetchOutcome.ok msgs → t.1 = { t.2.1 with messages := msgs })
        ∧ (t.2.2 = MsgFetchOutcome.err → t.1 = t.2.1 ∧ t.1.messages = []) := by
  by_cases hapi : api = []
  · subst hapi
    have houtcomes : outcomes = [] := List.length_eq_zero.mp hlen
    subst houtcomes
    refine ⟨rfl, rfl, ?_⟩
    intro t ht
    simp [loadSessionsFromDatabaseOk] at ht
  · have hne : (api.map mapSessionFromApi).isEmpty = false := by
      cases api with
      | nil => exact absurd rfl hapi
      | cons a t => rfl
    have hsessions : (loadSessionsFromDatabaseOk st api outcomes).1.sessions
        = ((api.map mapSessionFromApi).zip outcomes).map
            (fun p => (loadMessagesStep [] p.1 p.2).2) := by
      simp only [loadSessionsFromDatabaseOk, hne, Bool.false_eq_true, if_false]
      exact loadSessionsSettle_snd _ _
    have hpub : (loadSessionsFromDatabaseOk st api outcomes).2
        = [(loadSessionsFromDatabaseOk st api outcomes).1.sessions] := by
      simp only [loadSessionsFromDatabaseOk, hne, Bool.false_eq_true, if_false]
    refine ⟨hpub, ?_, ?_⟩
    · rw [hsessions, List.length_map, List.length_zip, List.length_map, hlen,
        Nat.min_self]
    · intro t ht
      rw [hsessions] at ht
      have ht1 : t.1 = (loadMessagesStep [] t.2.1 t.2.2).2 := mem_zip_map _ _ t ht
      constructor
      · intro msgs ho
        rw [ht1, ho]
        rfl
      · intro ho
        have hmem : t.2 ∈ (api.map mapSessionFromApi).zip outcomes := mem_zip_right t ht
        have hfst : t.2.1 ∈ api.map mapSessionFromApi := by
          have h2 : (t.2.1, t.2.2) ∈ (api.map mapSessionFromApi).zip outcomes := hmem
          exact (List.of_mem_zip h2).1
        rcases List.mem_map.mp hfst with ⟨a, ha, hmapped⟩
        have hmsgs : t.2.1.messages = [] := by
          rw [← hmapped]
          rfl
        rw [ht1, ho]
        exact ⟨rfl, hmsgs⟩

def apiW1 : SessionApiResponse :=
  { sessionId := sidT, userId := contT, title := titleT, selectedDocumentIds := [],
    createdAt := 0, updatedAt := 0 }

def apiW2 : SessionApiResponse :=
  { sessionId := sidB, userId := contT, title := titleT, selectedDocumentIds := [],
    createdAt := 0, updatedAt := 0 }

/-- Witness for C6 at a concrete input: two fetched sessions, where the second
session's message fetch fails — both are published, the first with its
messages, the second with an empty message array, and the publish trace has
exactly one entry. -/
theorem loadSessions_publishes_once_after_settle_witness :
    ([MsgFetchOutcome.ok [msgT], MsgFetchOutcome.err].length = [apiW1, apiW2].length)
    ∧ (loadSessionsFromDatabaseOk (SessionState.mk [] none [] []) [apiW1, apiW2]
          [MsgFetchOutcome.ok [msgT], MsgFetchOutcome.err]).2
        = [(loadSessionsFromDatabaseOk (SessionState.mk [] none [] []) [apiW1, apiW2]
          [MsgFetchOutcome.ok [msgT], MsgFetchOutcome.err]).1.sessions] :=
  ⟨rfl, (loadSessions_publishes_once_after_settle (SessionState.mk [] none [] [])
    [apiW1, apiW2] [MsgFetchOutcome.ok [msgT], MsgFetchOutcome.err] rfl).1⟩

/-! ### The success handler of a remote message append, and `deleteSession` -/

/-- The in-place replacement of the temporary message by the server-confirmed
one, matched by the temporary id (`part_009` lines 304-306). -/
def replaceMsg (tempMessageId : String) (savedMessage : ChatMessage)
    (msgs : List ChatMessage) : List ChatMessage :=
  msgs.map (fun m => if m.id = tempMessageId then savedMessage else m)

/-- Success handler of `addMessage`'s remote append (`part_009` lines 300-325;
identically `src/app/services/session.service.ts` lines 432-460, and the retry
success handler lines 339-364): replace the temporary message by its id inside
the target session, append the saved message to the messages-cache entry for
the session id unconditionally, and republish the current session when it is
the target and still present. -/
def patchSavedMessage (st : SessionState) (sessionId tempMessageId : String)
    (savedMessage : ChatMessage) : SessionState :=
  let sessions := st.sessions.map (fun s =>
    if s.id = sessionId then
      { s with messages := replaceMsg tempMessageId savedMessage s.messages }
    else s)
  let cache := cacheSet st.messagesCache sessionId
    (((cacheGet st.messagesCache sessionId).getD []) ++ [savedMessage])
  let current :=
    match st.currentSession with
    | some c =>
      if c.id = sessionId then
        match sessions.find? (fun s => s.id == sessionId) with
        | some u => some u
        | none => some c
      else some c
    | none => none
  { sessions := sessions, currentSession := current, messagesCache := cache,
    pendingSessionCreations := st.pendingSessionCreations }

/-- `deleteSession` (`part_009` lines 384-403): drop the session from the list
and the cache immediately, issue the remote delete (whose failure is only
logged, with no state effect), and re-point the current session — to the first
remaining session (through `setCurrentSession`) or to `null` when none
remain. -/
def deleteSession (st : SessionState) (sessionId : String) : SessionState :=
  let sessions := st.sessions.filter (fun s => s.id != sessionId)
  let st1 :=
    { st with
      sessions := sessions
      messagesCache := cacheDelete st.messagesCache sessionId }
  match st.currentSession with
  | some c =>
    if c.id = sessionId then
      match sessions with
      | [] => { st1 with currentSession := none }
      | s0 :: _ => setCurrentSessionSync st1 (some s0)
    else st1
  | none => st1

/-! ### C9: a remote append response arriving after the session was deleted -/

def sidD : String := "sD"

def tmpD : String := "tD"

def midD : String := "mD"

def msgD : ChatMessage :=
  { id := tmpD, role := Role.user, content := contT, timestamp := 0, rating := none }

def savedD : ChatMessage :=
  { id := midD, role := Role.user, content := contT, timestamp := 1, rating := none }

def sessD : ChatSession :=
  { id := sidD, title := titleT, messages := [msgD], selectedDocumentIds := [], createdAt := 0,
    updatedAt := 0 }

def stW9 : SessionState :=
  { sessions := [sessD], currentSession := some sessD, messagesCache := [(sidD, [])],
    pendingSessionCreations := [] }

/-- C9 counterexample: deleting session `sD` while its message append is in
flight and then processing the append response leaves a messages-cache entry
for the deleted session id — the success handler appends the saved message to
the cache unconditionally — so it is not true that the per-session message
cache contains no entry for the deleted id afterwards. -/
theorem deleted_session_patch_counterexample :
    cacheGet (patchSavedMessage (deleteSession stW9 sidD) sidD tmpD savedD).messagesCache sidD
      = some [savedD] := by
  decide

/-- C9 (amended): when the remote append response is processed after its
session was deleted (no session with the id is left in the list, and the
current session — if any — is a different one), the sessions list, the
current-session pointer and the pending-creations set are left unchanged, so
the deleted id stays absent from them; the messages cache, however, is not
left alone: the handler unconditionally stores the confirmed message under the
deleted session id, re-creating a cache entry for it. -/
theorem patch_nonexistent_session (st : SessionState) (sessionId tempMessageId : String)
    (savedMessage : ChatMessage)
    (hsess : ∀ s ∈ st.sessions, s.id ≠ sessionId)
    (hcur : ∀ c ∈ st.currentSession, c.id ≠ sessionId) :
    (patchSavedMessage st sessionId tempMessageId savedMessage).sessions = st.sessions
    ∧ (patchSavedMessage st sessionId tempMessageId savedMessage).currentSession
        = st.currentSession
    ∧ (patchSavedMessage st sessionId tempMessageId savedMessage).pendingSessionCreations
        = st.pendingSessionCreations
    ∧ (patchSavedMessage st sessionId tempMessageId savedMessage).messagesCache
        = cacheSet st.messagesCache sessionId
            (((cacheGet st.messagesCache sessionId).getD []) ++ [savedMessage]) := by
  have hmap : st.sessions.map (fun s =>
      if s.id = sessionId then
        { s with messages := replaceMsg tempMessageId savedMessage s.messages }
      else s) = st.sessions := by
    have : st.sessions.map (fun s =>
        if s.id = sessionId then
          { s with messages := replaceMsg tempMessageId savedMessage s.messages }
        else s) = st.sessions.map id := by
      apply List.map_congr_left
      intro s hs
      rw [if_neg (hsess s hs)]
      rfl
    rw [this, List.map_id]
  refine ⟨hmap, ?_, rfl, rfl⟩
  show (match st.currentSession with
    | some c =>
      if c.id = sessionId then
        match (st.sessions.map (fun s =>
          if s.id = sessionId then
            { s with messages := replaceMsg tempMessageId savedMessage s.messages }
          else s)).find? (fun s => s.id == sessionId) with
        | some u => some u
        | none => some c
      else some c
    | none => none) = st.currentSession
  cases hc : st.currentSession with
  | none => rfl
  | some c =>
    have : c.id ≠ sessionId := by
      apply hcur
      rw [hc]
      rfl
    simp only [if_neg this]

/-- Witness for C9 (amended) at a concrete input: after deleting session `sD`,
processing its in-flight append response leaves the sessions list unchanged
(still without the deleted session). -/
theorem patch_nonexistent_session_witness :
    (∀ s ∈ (deleteSession stW9 sidD).sessions, s.id ≠ sidD)
    ∧ (patchSavedMessage (deleteSession stW9 sidD) sidD tmpD savedD).sessions
        = (deleteSession stW9 sidD).sessions := by
  have hsess : ∀ s ∈ (deleteSession stW9 sidD).sessions, s.id ≠ sidD := by
    intro s hs
    rw [show (deleteSession stW9 sidD).sessions = [] from rfl] at hs
    simp at hs
  have hcur : ∀ c ∈ (deleteSession stW9 sidD).currentSession, c.id ≠ sidD := by
    intro c hc
    rw [show (deleteSession stW9 sidD).currentSession = none from rfl] at hc
    simp at hc
  exact ⟨hsess, (patch_nonexistent_session (deleteSession stW9 sidD) sidD tmpD savedD
    hsess hcur).1⟩

/-! ### C3: `ensureSessionExists` gates the remote append -/

/-- The bounded polling loop of `ensureSessionExists` (`part_009` lines
128-143): `maxWaitTime` is 5000 ms and the `setInterval` period is 100 ms, so
the `k`-th check runs at elapsed time `100 * (k + 1)`.  The loop completes at
the first check where the pending flag is gone, or at the first check past the
5000 ms ceiling ("proceeding anyway").  `p k` is whether the session id is
still pending at the `k`-th check.  The fuel `51` is enough for the timeout
guard to fire, so the loop always completes within it. -/
def pollLoopAux (p : Nat → Bool) : Nat → Nat → Nat
  | k, 0 => k
  | k, fuel + 1 =>
    if p k = false then k
    else if 5000 < 100 * (k + 1) then k
    else pollLoopAux p (k + 1) fuel

/-- Index of the polling check at which the wait of `ensureSessionExists`
completes. -/
def pollTicks (p : Nat → Bool) : Nat :=
  pollLoopAux p 0 51

theorem pollLoopAux_spec (p : Nat → Bool) :
    ∀ fuel k, k + fuel = 51 → k ≤ 50 →
      pollLoopAux p k fuel ≤ 50
      ∧ (p (pollLoopAux p k fuel) = false ∨ 5000 < 100 * (pollLoopAux p k fuel + 1))
      ∧ ∀ j, k ≤ j → j < pollLoopAux p k fuel → p j = true ∧ 100 * (j + 1) ≤ 5000 := by
  intro fuel
  induction fuel with
  | zero =>
    intro k hk hk50
    omega
  | succ n ih =>
    intro k hk hk50
    simp only [pollLoopAux]
    by_cases hp : p k = false
    · rw [if_pos hp]
      exact ⟨hk50, Or.inl hp, fun j hj1 hj2 => absurd hj2 (by omega)⟩
    · have hptrue : p k = true := by
        revert hp
        cases p k <;> simp
      rw [if_neg hp]
      by_cases ht : 5000 < 100 * (k + 1)
      · rw [if_pos ht]
        exact ⟨hk50, Or.inr ht, fun j hj1 hj2 => absurd hj2 (by omega)⟩
      · rw [if_neg ht]
        have hrec := ih (k + 1) (by omega) (by omega)
        refine ⟨hrec.1, hrec.2.1, ?_⟩
        intro j hj1 hj2
        by_cases hjk : j = k
        · subst hjk
          exact ⟨hptrue, by omega⟩
        · exact hrec.2.2 j (by omega) hj2

/-- One observed step of the remote phase of `addMessage`. -/
inductive RemoteEvent
  | waitPollCheck (k : Nat)
  | createIssued
  | ensureDone
  | ensureErrored
  | appendIssued
deriving DecidableEq, Repr

/-- Whether the `ensureSessionExists` observable emits when its inline remote
create settles with outcome `o` (`part_009` lines 150-180): on success the
`map` emits the merged session; on an error, the `catchError` emits the local
session only for a duplicate-key signature (status 409 or a
primary-key/duplicate/already-exists message) and rethrows every other error
(the `too many arguments` special case also rethrows), so the observable
errors and emits nothing. -/
def ensureEmits (o : CreateOutcome) : Bool :=
  match o with
  | .ok _ => true
  | .err e => isDuplicateEnsureError e

/-- Event trace and emission flag of one `ensureSessionExists` run (`part_009`
lines 126-181).  When the session id is pending, the observable polls every
100 ms until the flag clears or the 5 s ceiling passes, then emits (this
branch never errors).  Otherwise the id is marked pending and the remote
create is issued inline with outcome `o`: the observable emits when the call
succeeds or fails with a duplicate-key signature, and errors otherwise
(`ensureEmits`). -/
def ensureSessionExistsRun (st : SessionState) (sessionId : String) (p : Nat → Bool)
    (o : CreateOutcome) : List RemoteEvent × Bool :=
  if setHas st.pendingSessionCreations sessionId then
    (((List.range (pollTicks p + 1)).map RemoteEvent.waitPollCheck) ++ [RemoteEvent.ensureDone],
      true)
  else if ensureEmits o then ([RemoteEvent.createIssued, RemoteEvent.ensureDone], true)
  else ([RemoteEvent.createIssued, RemoteEvent.ensureErrored], false)

/-- Event trace of the remote phase of `addMessage` (`part_009` lines
292-299): the `switchMap` issues the remote append only when the
`ensureSessionExists` observable has emitted; when that observable errors
instead, the projection never runs and no append is issued (the subscription
error handler fires). -/
def addMessageRemoteTrace (st : SessionState) (sessionId : String) (p : Nat → Bool)
    (o : CreateOutcome) : List RemoteEvent :=
  if (ensureSessionExistsRun st sessionId p o).2 then
    (ensureSessionExistsRun st sessionId p o).1 ++ [RemoteEvent.appendIssued]
  else (ensureSessionExistsRun st sessionId p o).1

theorem appendIssued_not_mem_ensureRun (st : SessionState) (sessionId : String)
    (p : Nat → Bool) (o : CreateOutcome) :
    RemoteEvent.appendIssued ∉ (ensureSessionExistsRun st sessionId p o).1 := by
  by_cases hpend : setHas st.pendingSessionCreations sessionId = true
  · rw [ensureSessionExistsRun, if_pos hpend]
    intro h
    rcases List.mem_append.mp h with h1 | h1
    · rcases List.mem_map.mp h1 with ⟨k, -, hk⟩
      exact RemoteEvent.noConfusion hk
    · simp at h1
  · rw [ensureSessionExistsRun, if_neg hpend]
    by_cases he : ensureEmits o = true
    · rw [if_pos he]
      intro h
      simp at h
    · rw [if_neg he]
      intro h
      simp at h

theorem addMessageRemoteTrace_of_emits (st : SessionState) (sessionId : String)
    (p : Nat → Bool) (o : CreateOutcome)
    (h : (ensureSessionExistsRun st sessionId p o).2 = true) :
    addMessageRemoteTrace st sessionId p o
      = (ensureSessionExistsRun st sessionId p o).1 ++ [RemoteEvent.appendIssued] := by
  rw [addMessageRemoteTrace, if_pos h]

theorem addMessageRemoteTrace_of_errors (st : SessionState) (sessionId : String)
    (p : Nat → Bool) (o : CreateOutcome)
    (h : (ensureSessionExistsRun st sessionId p o).2 = false) :
    addMessageRemoteTrace st sessionId p o = (ensureSessionExistsRun st sessionId p o).1 := by
  rw [addMessageRemoteTrace, if_neg (by rw [h]; exact Bool.false_ne_true)]

/-- C3: in `addMessage`, the remote append is issued only after — and only if
— `ensureSessionExists` completes: when the ensure observable emits, the trace
is its events followed by exactly one append (the append is last, so it is not
issued before the pending flag clears or the bounded timeout elapses); when
the ensure observable errors (inline create rethrown), no append is issued at
all.  When the session id is in `pendingSessionCreations`, the ensure step
polls at 100 ms intervals and completes at the first check `k` at which the
flag has been cleared or the elapsed time `100 * (k + 1)` exceeds the 5000 ms
ceiling — the wait is bounded (`k ≤ 50`, about 5 seconds), at every earlier
check the flag was still set within the ceiling, and past the ceiling the
append proceeds regardless.  When the id is not pending (remote creation not
yet attempted), the remote create is triggered inline and awaited: if it
resolves, the append follows it; if it hard-fails (non-duplicate error), the
rethrow reaches the subscriber and the append is never issued. -/
theorem addMessage_waits_for_pending_session (st : SessionState) (sessionId : String)
    (p : Nat → Bool) (o : CreateOutcome) :
    (addMessageRemoteTrace st sessionId p o).count RemoteEvent.appendIssued
        = (if (ensureSessionExistsRun st sessionId p o).2 = true then 1 else 0)
    ∧ ((ensureSessionExistsRun st sessionId p o).2 = true →
        addMessageRemoteTrace st sessionId p o
          = (ensureSessionExistsRun st sessionId p o).1 ++ [RemoteEvent.appendIssued]
        ∧ (addMessageRemoteTrace st sessionId p o).getLast? = some RemoteEvent.appendIssued)
    ∧ (setHas st.pendingSessionCreations sessionId = true →
        addMessageRemoteTrace st sessionId p o
          = ((List.range (pollTicks p + 1)).map RemoteEvent.waitPollCheck)
              ++ [RemoteEvent.ensureDone, RemoteEvent.appendIssued]
        ∧ pollTicks p ≤ 50
        ∧ (p (pollTicks p) = false ∨ 5000 < 100 * (pollTicks p + 1))
        ∧ ∀ j < pollTicks p, p j = true ∧ 100 * (j + 1) ≤ 5000)
    ∧ (setHas st.pendingSessionCreations sessionId = false →
        (∀ created, o = CreateOutcome.ok created →
          addMessageRemoteTrace st sessionId p o
            = [RemoteEvent.createIssued, RemoteEvent.ensureDone, RemoteEvent.appendIssued])
        ∧ (∀ e, o = CreateOutcome.err e → isDuplicateEnsureError e = false →
          addMessageRemoteTrace st sessionId p o
            = [RemoteEvent.createIssued, RemoteEvent.ensureErrored])) := by
  have hnotin := appendIssued_not_mem_ensureRun st sessionId p o
  have hspec := pollLoopAux_spec p 51 0 rfl (by omega)
  refine ⟨?_, ?_, ?_, ?_⟩
  · by_cases hemit : (ensureSessionExistsRun st sessionId p o).2 = true
    · rw [if_pos hemit, addMessageRemoteTrace_of_emits st sessionId p o hemit,
        List.count_append, List.count_eq_zero.mpr hnotin]
      rfl
    · have hfalse : (ensureSessionExistsRun st sessionId p o).2 = false := by
        revert hemit
        cases (ensureSessionExistsRun st sessionId p o).2 <;> simp
      rw [if_neg hemit, addMessageRemoteTrace_of_errors st sessionId p o hfalse,
        List.count_eq_zero.mpr hnotin]
  · intro hemit
    refine ⟨addMessageRemoteTrace_of_emits st sessionId p o hemit, ?_⟩
    rw [addMessageRemoteTrace_of_emits st sessionId p o hemit, List.getLast?_concat]
  · intro hpend
    have hrun : ensureSessionExistsRun st sessionId p o
        = (((List.range (pollTicks p + 1)).map RemoteEvent.waitPollCheck)
            ++ [RemoteEvent.ensureDone], true) := by
      rw [ensureSessionExistsRun, if_pos hpend]
    have hemit : (ensureSessionExistsRun st sessionId p o).2 = true := by
      rw [hrun]
    refine ⟨?_, hspec.1, hspec.2.1, fun j hj => hspec.2.2 j (Nat.zero_le j) hj⟩
    rw [addMessageRemoteTrace_of_emits st sessionId p o hemit, hrun, List.append_assoc]
    rfl
  · intro hnp
    have hnp2 : ¬ setHas st.pendingSessionCreations sessionId = true := by
      rw [hnp]
      exact Bool.false_ne_true
    constructor
    · intro created ho
      subst ho
      have hrun : ensureSessionExistsRun st sessionId p (CreateOutcome.ok created)
          = ([RemoteEvent.createIssued, RemoteEvent.ensureDone], true) := by
        rw [ensureSessionExistsRun, if_neg hnp2,
          if_pos (show ensureEmits (CreateOutcome.ok created) = true from rfl)]
      have hemit : (ensureSessionExistsRun st sessionId p (CreateOutcome.ok created)).2
          = true := by
        rw [hrun]
      rw [addMessageRemoteTrace_of_emits st sessionId p _ hemit, hrun]
      rfl
    · intro e ho hdup
      subst ho
      have hrun : ensureSessionExistsRun st sessionId p (CreateOutcome.err e)
          = ([RemoteEvent.createIssued, RemoteEvent.ensureErrored], false) := by
        rw [ensureSessionExistsRun, if_neg hnp2,
          if_neg (show ¬ ensureEmits (CreateOutcome.err e) = true by
            show ¬ isDuplicateEnsureError e = true
            rw [hdup]
            exact Bool.false_ne_true)]
      have hnoemit : (ensureSessionExistsRun st sessionId p (CreateOutcome.err e)).2
          = false := by
        rw [hrun]
      rw [addMessageRemoteTrace_of_errors st sessionId p _ hnoemit, hrun]

def sidC3 : String := "sC"

def stC3 : SessionState :=
  { sessions := [], currentSession := none, messagesCache := [],
    pendingSessionCreations := [sidC3] }

def pAlwaysClear : Nat → Bool := fun _ => false

/-- Witness for C3 at a concrete input: with session `sC` pending and the flag
observed cleared at the first check, the ensure observable emits and the
remote phase ends with the append. -/
theorem addMessage_waits_for_pending_session_witness :
    (setHas stC3.pendingSessionCreations sidC3 = true)
    ∧ ((ensureSessionExistsRun stC3 sidC3 pAlwaysClear (CreateOutcome.ok sessT)).2 = true)
    ∧ (addMessageRemoteTrace stC3 sidC3 pAlwaysClear (CreateOutcome.ok sessT)).getLast?
        = some RemoteEvent.appendIssued := by
  refine ⟨by decide, by decide, ?_⟩
  exact ((addMessage_waits_for_pending_session stC3 sidC3 pAlwaysClear
    (CreateOutcome.ok sessT)).2.1 (by decide)).2

/-! ### `addMessage`: optimistic local phase and remote phase -/

/-- The fields of a new message handed to `addMessage`
(`Omit<ChatMessage, 'id' | 'timestamp'>`). -/
structure NewMessage where
  role : Role
  content : String
  rating : Option Rating
deriving DecidableEq, Repr

/-- `message.content.substring(0, 50) || 'New Chat'`. -/
def truncTitle (content : String) : String :=
  let t := content.take 50
  if t = emptyText then newChatTitle else t

/-- The temporary message synthesized by `addMessage` (`part_009` lines
255-260). -/
def mkTempMessage (msg : NewMessage) (tempId : String) (now : Nat) : ChatMessage :=
  { id := tempId, role := msg.role, content := msg.content, timestamp := now,
    rating := msg.rating }

/-- The per-session optimistic update of `addMessage` for a session already in
the list (`part_009` lines 275-288): append the temporary message, refresh
`updatedAt`, and derive the title from a first user message. -/
def appendTempToSession (tempMessage : ChatMessage) (msg : NewMessage) (now : Nat)
    (s : ChatSession) : ChatSession :=
  { s with
    messages := s.messages ++ [tempMessage]
    updatedAt := now
    title := if s.messages.isEmpty ∧ msg.role = Role.user then truncTitle msg.content
      else s.title }

/-- `sessions.find(...) || current`: the session object `addMessage` works
with (`part_009` line 248). -/
def sessionLookup (st : SessionState) (sessionId : String) : Option ChatSession :=
  match st.sessions.find? (fun s => s.id == sessionId) with
  | some s => some s
  | none => st.currentSession

/-- The current-session republication at the end of `addMessage` (`part_009`
lines 376-381), keyed on the current session captured at entry. -/
def addMessageSyncFinish (current : Option ChatSession) (sessionId : String)
    (sessions2 : List ChatSession) (stMid : SessionState) : SessionState :=
  match current with
  | some c =>
    if c.id = sessionId then
      match sessions2.find? (fun s => s.id == sessionId) with
      | some u => { stMid with currentSession := some u }
      | none => stMid
    else stMid
  | none => stMid

/-- Synchronous phase of `addMessage` (`part_009` lines 244-290 and 376-381):
locate the session (list first, falling back to the captured current session;
`none` when neither matches — the call only logs and returns), synthesize the
temporary message, then either append it optimistically to the existing list
entry or prepend a new list entry built from the fallback session (running
`setCurrentSession` on it), and finally republish the current session when it
is the target.  Returns the updated state and the temporary message; the
remote phase (`ensureSessionExists` then append) is a separate event. -/
def addMessageSync (st : SessionState) (sessionId : String) (msg : NewMessage)
    (tempId : String) (now : Nat) : Option (SessionState × ChatMessage) :=
  match sessionLookup st sessionId with
  | none => none
  | some session =>
    let tempMessage := mkTempMessage msg tempId now
    if st.sessions.any (fun s => s.id == sessionId) then
      let sessions2 := st.sessions.map (fun s =>
        if s.id = sessionId then appendTempToSession tempMessage msg now s else s)
      some (addMessageSyncFinish st.currentSession sessionId sessions2
        { st with sessions := sessions2 }, tempMessage)
    else
      let newSession :=
        { session with
          messages := [tempMessage]
          title := if session.title ≠ emptyText ∧ session.title ≠ newChatTitle then
              session.title
            else truncTitle msg.content
          updatedAt := now }
      let sessions2 := newSession :: st.sessions
      some (addMessageSyncFinish st.currentSession sessionId sessions2
        (setCurrentSessionSync { st with sessions := sessions2 } (some newSession)),
        tempMessage)

/-- Outcome of one run of the `ensureSessionExists`-then-append pipeline: the
`switchMap` never reaches the append when the ensure step errors; otherwise
the append either succeeds with the server-confirmed message or errors. -/
inductive PhaseOutcome
  | ensureFailed (e : HttpError)
  | appendOk (saved : ChatMessage)
  | appendErr (e : HttpError)
deriving DecidableEq, Repr

/-- Number of remote append calls a pipeline run performs. -/
def phaseAppendCalls : PhaseOutcome → Nat
  | .ensureFailed _ => 0
  | .appendOk _ => 1
  | .appendErr _ => 1

/-- Remote phase of `addMessage` (`part_009` lines 294-374): one pipeline run;
on success the saved message is patched in; on an error carrying the
foreign-key signature exactly one retry cycle runs (`ensureSessionExists`,
then the append once more — `retryPhase`), whose success patches in the saved
message and whose failure is only logged; any other error is only logged.
Returns the resulting state and the total number of remote append calls; no
variant surfaces an error to the caller. -/
def addMessageRemote (st : SessionState) (sessionId tempMessageId : String)
    (firstPhase retryPhase : PhaseOutcome) : SessionState × Nat :=
  match firstPhase with
  | .appendOk saved => (patchSavedMessage st sessionId tempMessageId saved, 1)
  | .ensureFailed e | .appendErr e =>
    if fkSignature e then
      match retryPhase with
      | .appendOk saved =>
        (patchSavedMessage st sessionId tempMessageId saved, phaseAppendCalls firstPhase + 1)
      | .ensureFailed _ => (st, phaseAppendCalls firstPhase)
      | .appendErr _ => (st, phaseAppendCalls firstPhase + 1)
    else (st, phaseAppendCalls firstPhase)

theorem addMessageSyncFinish_sessions (current : Option ChatSession) (sessionId : String)
    (sessions2 : List ChatSession) (stMid : SessionState) :
    (addMessageSyncFinish current sessionId sessions2 stMid).sessions = stMid.sessions := by
  cases current with
  | none => rfl
  | some c =>
    simp only [addMessageSyncFinish]
    by_cases h : c.id = sessionId
    · rw [if_pos h]
      cases sessions2.find? (fun s => s.id == sessionId) <;> rfl
    · rw [if_neg h]

theorem addMessageRemote_fk_retryOk (st : SessionState) (sessionId tempMessageId : String)
    (e : HttpError) (m : ChatMessage) (hfk : fkSignature e = true) :
    addMessageRemote st sessionId tempMessageId (.appendErr e) (.appendOk m)
      = (patchSavedMessage st sessionId tempMessageId m, 2) := by
  have h : addMessageRemote st sessionId tempMessageId (.appendErr e) (.appendOk m)
      = if fkSignature e then
          (patchSavedMessage st sessionId tempMessageId m,
            phaseAppendCalls (PhaseOutcome.appendErr e) + 1)
        else (st, phaseAppendCalls (PhaseOutcome.appendErr e)) := rfl
  rw [h, if_pos hfk]
  rfl

theorem addMessageRemote_fk_retryEnsureFailed (st : SessionState)
    (sessionId tempMessageId : String) (e e2 : HttpError) (hfk : fkSignature e = true) :
    addMessageRemote st sessionId tempMessageId (.appendErr e) (.ensureFailed e2)
      = (st, 1) := by
  have h : addMessageRemote st sessionId tempMessageId (.appendErr e) (.ensureFailed e2)
      = if fkSignature e then (st, phaseAppendCalls (PhaseOutcome.appendErr e))
        else (st, phaseAppendCalls (PhaseOutcome.appendErr e)) := rfl
  rw [h, if_pos hfk]
  rfl

theorem addMessageRemote_fk_retryErr (st : SessionState) (sessionId tempMessageId : String)
    (e e2 : HttpError) (hfk : fkSignature e = true) :
    addMessageRemote st sessionId tempMessageId (.appendErr e) (.appendErr e2)
      = (st, 2) := by
  have h : addMessageRemote st sessionId tempMessageId (.appendErr e) (.appendErr e2)
      = if fkSignature e then (st, phaseAppendCalls (PhaseOutcome.appendErr e) + 1)
        else (st, phaseAppendCalls (PhaseOutcome.appendErr e)) := rfl
  rw [h, if_pos hfk]
  rfl

/-! ### C4: the foreign-key retry policy of `addMessage` -/

/-- C4: when the remote append of `addMessage` fails with a foreign-key
signature, exactly one retry cycle is performed — ensure the parent session
exists, then retry the append once — so the total number of append calls is
`1` plus the calls of the retry cycle (two when the retry reaches its append,
at most two overall); and when the retry cycle does not succeed, the state is
left exactly as the optimistic phase produced it, so the temporary message is
still present in the target session's messages list (never removed on
failure), and no error is surfaced to the caller (`addMessageRemote` is total
into states). -/
theorem addMessage_fk_retry (st : SessionState) (sessionId : String) (msg : NewMessage)
    (tempId : String) (now : Nat) (i : Nat) (hi : i < st.sessions.length)
    (hid : (st.sessions[i]).id = sessionId)
    (e : HttpError) (hfk : fkSignature e = true) (retryPhase : PhaseOutcome) :
    ∀ st1 tm, addMessageSync st sessionId msg tempId now = some (st1, tm) →
      ((addMessageRemote st1 sessionId tempId (.appendErr e) retryPhase).2
          = 1 + phaseAppendCalls retryPhase)
      ∧ (addMessageRemote st1 sessionId tempId (.appendErr e) retryPhase).2 ≤ 2
      ∧ ((∀ m2, retryPhase ≠ PhaseOutcome.appendOk m2) →
          (addMessageRemote st1 sessionId tempId (.appendErr e) retryPhase).1 = st1
          ∧ ∃ h1 : i < st1.sessions.length,
              tm ∈ (st1.sessions[i]).messages) := by
  intro st1 tm heq
  have hmem : st.sessions[i] ∈ st.sessions := List.getElem_mem hi
  have hany : st.sessions.any (fun s => s.id == sessionId) = true := by
    rw [List.any_eq_true]
    exact ⟨st.sessions[i], hmem, by simp [hid]⟩
  obtain ⟨s0, hs0⟩ : ∃ s0, st.sessions.find? (fun s => s.id == sessionId) = some s0 := by
    rw [← Option.isSome_iff_exists, List.find?_isSome]
    exact ⟨st.sessions[i], hmem, by simp [hid]⟩
  have hlookup : sessionLookup st sessionId = some s0 := by
    rw [sessionLookup, hs0]
  rw [addMessageSync, hlookup, hany] at heq
  simp only [if_true] at heq
  have hpair := Option.some.inj heq
  rw [Prod.mk.injEq] at hpair
  have hst1 : addMessageSyncFinish st.currentSession sessionId
      (st.sessions.map (fun s =>
        if s.id = sessionId then appendTempToSession (mkTempMessage msg tempId now) msg now s
        else s))
      { st with sessions := st.sessions.map (fun s =>
          if s.id = sessionId then appendTempToSession (mkTempMessage msg tempId now) msg now s
          else s) } = st1 := hpair.1
  have htm : tm = mkTempMessage msg tempId now := hpair.2.symm
  have hsessions1 : st1.sessions = st.sessions.map (fun s =>
      if s.id = sessionId then appendTempToSession (mkTempMessage msg tempId now) msg now s
      else s) := by
    rw [← hst1, addMessageSyncFinish_sessions]
  have h1 : i < st1.sessions.length := by
    rw [hsessions1, List.length_map]
    exact hi
  have hgettm : tm ∈ (st1.sessions[i]).messages := by
    have hmap : i < (st.sessions.map (fun s =>
        if s.id = sessionId then appendTempToSession (mkTempMessage msg tempId now) msg now s
        else s)).length := by
      rw [List.length_map]
      exact hi
    have hcast : st1.sessions[i] = (st.sessions.map (fun s =>
        if s.id = sessionId then appendTempToSession (mkTempMessage msg tempId now) msg now s
        else s))[i] := by
      congr 1
    have hget : st1.sessions[i]
        = appendTempToSession (mkTempMessage msg tempId now) msg now (st.sessions[i]) := by
      rw [hcast, List.getElem_map, if_pos hid]
    rw [hget, htm, appendTempToSession]
    simp
  cases retryPhase with
  | appendOk m2 =>
    rw [addMessageRemote_fk_retryOk st1 sessionId tempId e m2 hfk]
    exact ⟨rfl, by omega, fun hno => absurd rfl (hno m2)⟩
  | ensureFailed e2 =>
    rw [addMessageRemote_fk_retryEnsureFailed st1 sessionId tempId e e2 hfk]
    exact ⟨rfl, by omega, fun _ => ⟨rfl, h1, hgettm⟩⟩
  | appendErr e2 =>
    rw [addMessageRemote_fk_retryErr st1 sessionId tempId e e2 hfk]
    exact ⟨rfl, by omega, fun _ => ⟨rfl, h1, hgettm⟩⟩

def sidF : String := "sF"

def tmpF : String := "tF"

def sessF : ChatSession :=
  { id := sidF, title := titleT, messages := [], selectedDocumentIds := [], createdAt := 0,
    updatedAt := 0 }

def stWF : SessionState :=
  { sessions := [sessF], currentSession := none, messagesCache := [],
    pendingSessionCreations := [] }

def fkErrW : HttpError := { status := 500, message := fkViolationText }

def newMsgW : NewMessage := { role := Role.user, content := contT, rating := none }

def syncWF : SessionState × ChatMessage :=
  (addMessageSync stWF sidF newMsgW tmpF 1).getD (stWF, mkTempMessage newMsgW tmpF 1)

/-- Witness for C4 at a concrete input: a foreign-key failure whose retry also
fails leaves the optimistic state unchanged and performs `1 + 1` append calls
in total. -/
theorem addMessage_fk_retry_witness :
    (fkSignature fkErrW = true)
    ∧ ((addMessageRemote syncWF.1 sidF tmpF (.appendErr fkErrW) (.appendErr fkErrW)).2
        = 1 + phaseAppendCalls (.appendErr fkErrW))
    ∧ (addMessageRemote syncWF.1 sidF tmpF (.appendErr fkErrW) (.appendErr fkErrW)).1
        = syncWF.1 := by
  have h := addMessage_fk_retry stWF sidF newMsgW tmpF 1 0 (by decide) (by rfl) fkErrW
    (by decide) (.appendErr fkErrW) syncWF.1 syncWF.2 (by rfl)
  exact ⟨by decide, h.1, (h.2.2 (fun m2 hm2 => PhaseOutcome.noConfusion hm2)).1⟩

/-! ### C7: arrival-order independence of append confirmations -/

/-- One pending confirmation of a remote append: the temporary id it patches
and the server-confirmed message. -/
structure MsgPatch where
  tempId : String
  saved : ChatMessage
deriving DecidableEq, Repr

/-- Run the success handlers of a batch of append confirmations in a given
arrival order (each handler is `patchSavedMessage` on the then-current
state). -/
def applyPatchEvents (st : SessionState) (sessionId : String) (ps : List MsgPatch) :
    SessionState :=
  ps.foldl (fun s p => patchSavedMessage s sessionId p.tempId p.saved) st

/-- The same batch at the message-list level. -/
def applyPatches (msgs : List ChatMessage) (ps : List MsgPatch) : List ChatMessage :=
  ps.foldl (fun acc p => replaceMsg p.tempId p.saved acc) msgs

/-- First patch of the batch for a given temporary id. -/
def lookupPatch : List MsgPatch → String → Option ChatMessage
  | [], _ => none
  | p :: ps, i => if p.tempId = i then some p.saved else lookupPatch ps i

/-- Net effect of a batch of patches on one message. -/
def substPatch (ps : List MsgPatch) (m : ChatMessage) : ChatMessage :=
  (lookupPatch ps m.id).getD m

/-- No server-confirmed id of the batch collides with a temporary id of the
batch (server-assigned ids are fresh). -/
def patchFresh (ps : List MsgPatch) : Prop :=
  ∀ p ∈ ps, ∀ q ∈ ps, p.saved.id ≠ q.tempId

/-- Ascending-by-timestamp check (the message-order invariant of the data
model). -/
def sortedByTimestamp : List ChatMessage → Bool
  | [] => true
  | [_] => true
  | a :: b :: t =>
    if a.timestamp ≤ b.timestamp then sortedByTimestamp (b :: t) else false

theorem lookupPatch_eq_none (ps : List MsgPatch) (i : String)
    (h : ∀ q ∈ ps, i ≠ q.tempId) : lookupPatch ps i = none := by
  induction ps with
  | nil => rfl
  | cons p ps ih =>
    simp only [lookupPatch]
    rw [if_neg (fun hc => h p (List.mem_cons_self p ps) hc.symm)]
    exact ih (fun q hq => h q (List.mem_cons_of_mem p hq))

theorem applyPatches_eq_map (ps : List MsgPatch) :
    ∀ msgs, patchFresh ps → applyPatches msgs ps = msgs.map (substPatch ps) := by
  induction ps with
  | nil =>
    intro msgs _
    have : msgs.map (substPatch []) = msgs.map id := by
      apply List.map_congr_left
      intro m _
      rfl
    rw [applyPatches, List.foldl_nil, this, List.map_id]
  | cons p ps ih =>
    intro msgs hfresh
    have hfresh2 : patchFresh ps := by
      intro a ha b hb
      exact hfresh a (List.mem_cons_of_mem p ha) b (List.mem_cons_of_mem p hb)
    have hstep : applyPatches msgs (p :: ps)
        = applyPatches (replaceMsg p.tempId p.saved msgs) ps := rfl
    rw [hstep, ih _ hfresh2, replaceMsg, List.map_map]
    apply List.map_congr_left
    intro m _
    show substPatch ps (if m.id = p.tempId then p.saved else m) = substPatch (p :: ps) m
    by_cases hc : m.id = p.tempId
    · rw [if_pos hc]
      have hnone : lookupPatch ps p.saved.id = none := by
        apply lookupPatch_eq_none
        intro q hq
        exact hfresh p (List.mem_cons_self p ps) q (List.mem_cons_of_mem p hq)
      show (lookupPatch ps p.saved.id).getD p.saved = (lookupPatch (p :: ps) m.id).getD m
      rw [hnone]
      simp only [lookupPatch]
      rw [if_pos hc.symm]
      rfl
    · rw [if_neg hc]
      show (lookupPatch ps m.id).getD m = (lookupPatch (p :: ps) m.id).getD m
      simp only [lookupPatch]
      rw [if_neg (fun hx => hc hx.symm)]

theorem lookupPatch_perm :
    ∀ {ps qs : List MsgPatch}, ps.Perm qs → (ps.map MsgPatch.tempId).Nodup →
      ∀ i, lookupPatch ps i = lookupPatch qs i := by
  intro ps qs h
  induction h with
  | nil =>
    intro _ i
    rfl
  | cons p hrest ih =>
    intro hnodup i
    rw [List.map_cons, List.nodup_cons] at hnodup
    simp only [lookupPatch]
    by_cases hc : p.tempId = i
    · rw [if_pos hc, if_pos hc]
    · rw [if_neg hc, if_neg hc]
      exact ih hnodup.2 i
  | swap x y l =>
    intro hnodup i
    rw [List.map_cons, List.map_cons, List.nodup_cons, List.nodup_cons] at hnodup
    have hxy : y.tempId ≠ x.tempId := by
      intro hcontra
      exact hnodup.1 (by rw [hcontra]; exact List.mem_cons_self _ _)
    simp only [lookupPatch]
    by_cases h1 : y.tempId = i
    · rw [if_pos h1, if_neg (fun h2 => hxy (h1.trans h2.symm)), if_pos h1]
    · rw [if_neg h1]
      by_cases h2 : x.tempId = i
      · rw [if_pos h2, if_pos h2]
      · rw [if_neg h2, if_neg h2, if_neg h1]
  | trans h1 h2 ih1 ih2 =>
    intro hnodup i
    rw [ih1 hnodup i, ih2 ((h1.map MsgPatch.tempId).nodup hnodup) i]

theorem map_substPatch_saved (ps : List MsgPatch) :
    ∀ msgs : List ChatMessage, msgs.map ChatMessage.id = ps.map MsgPatch.tempId →
      (ps.map MsgPatch.tempId).Nodup → msgs.map (substPatch ps) = ps.map MsgPatch.saved := by
  induction ps with
  | nil =>
    intro msgs hids _
    cases msgs with
    | nil => rfl
    | cons m ms => simp at hids
  | cons p ps ih =>
    intro msgs hids hnodup
    cases msgs with
    | nil => exact absurd hids (by simp)
    | cons m ms =>
      rw [List.map_cons, List.map_cons] at hids
      have hmid : m.id = p.tempId := (List.cons.injEq _ _ _ _ ▸ hids).1
      have hms : ms.map ChatMessage.id = ps.map MsgPatch.tempId :=
        (List.cons.injEq _ _ _ _ ▸ hids).2
      rw [List.map_cons, List.nodup_cons] at hnodup
      have hhead : substPatch (p :: ps) m = p.saved := by
        show (lookupPatch (p :: ps) m.id).getD m = p.saved
        simp only [lookupPatch]
        rw [if_pos hmid.symm]
        rfl
      have htail : ms.map (substPatch (p :: ps)) = ms.map (substPatch ps) := by
        apply List.map_congr_left
        intro m2 hm2
        have hm2id : m2.id ∈ ps.map MsgPatch.tempId := by
          rw [← hms]
          exact List.mem_map_of_mem ChatMessage.id hm2
        have hne : p.tempId ≠ m2.id := by
          intro hcontra
          exact hnodup.1 (hcontra ▸ hm2id)
        show (lookupPatch (p :: ps) m2.id).getD m2 = (lookupPatch ps m2.id).getD m2
        simp only [lookupPatch]
        rw [if_neg hne]
      rw [List.map_cons, List.map_cons, hhead, htail, ih ms hms hnodup.2]

theorem patchSavedMessage_sessions (st : SessionState) (sessionId tempMessageId : String)
    (savedMessage : ChatMessage) :
    (patchSavedMessage st sessionId tempMessageId savedMessage).sessions
      = st.sessions.map (fun s =>
          if s.id = sessionId then
            { s with messages := replaceMsg tempMessageId savedMessage s.messages }
          else s) := rfl

theorem applyPatchEvents_getElem (sessionId : String) (ps : List MsgPatch) :
    ∀ st : SessionState,
      (applyPatchEvents st sessionId ps).sessions.length = st.sessions.length
      ∧ ∀ i (hi : i < st.sessions.length)
          (hi2 : i < (applyPatchEvents st sessionId ps).sessions.length),
          (applyPatchEvents st sessionId ps).sessions[i]
            = if st.sessions[i].id = sessionId then
                { st.sessions[i] with messages := applyPatches st.sessions[i].messages ps }
              else st.sessions[i] := by
  induction ps with
  | nil =>
    intro st
    refine ⟨rfl, ?_⟩
    intro i hi hi2
    by_cases h : st.sessions[i].id = sessionId
    · rw [if_pos h]
      rfl
    · rw [if_neg h]
      rfl
  | cons p ps ih =>
    intro st
    have hstep : applyPatchEvents st sessionId (p :: ps)
        = applyPatchEvents (patchSavedMessage st sessionId p.tempId p.saved) sessionId ps := rfl
    have hlen1 : (patchSavedMessage st sessionId p.tempId p.saved).sessions.length
        = st.sessions.length := by
      rw [patchSavedMessage_sessions, List.length_map]
    refine ⟨by rw [hstep, (ih _).1, hlen1], ?_⟩
    intro i hi hi2
    have hi1 : i < (patchSavedMessage st sessionId p.tempId p.saved).sessions.length := by
      rw [hlen1]
      exact hi
    have hone : (patchSavedMessage st sessionId p.tempId p.saved).sessions[i]
        = if st.sessions[i].id = sessionId then
            { st.sessions[i] with messages := replaceMsg p.tempId p.saved st.sessions[i].messages }
          else st.sessions[i] := by
      have hmap : i < (st.sessions.map (fun s =>
          if s.id = sessionId then
            { s with messages := replaceMsg p.tempId p.saved s.messages }
          else s)).length := by
        rw [List.length_map]
        exact hi
      have hcast : (patchSavedMessage st sessionId p.tempId p.saved).sessions[i]
          = (st.sessions.map (fun s =>
              if s.id = sessionId then
                { s with messages := replaceMsg p.tempId p.saved s.messages }
              else s))[i] := by
        congr 1
      rw [hcast, List.getElem_map]
    have hi3 : i < (applyPatchEvents (patchSavedMessage st sessionId p.tempId p.saved)
        sessionId ps).sessions.length := by
      rw [(ih _).1, hlen1]
      exact hi
    have hrec := (ih (patchSavedMessage st sessionId p.tempId p.saved)).2 i hi1 hi3
    have hfin : (applyPatchEvents st sessionId (p :: ps)).sessions[i]
        = (applyPatchEvents (patchSavedMessage st sessionId p.tempId p.saved)
            sessionId ps).sessions[i] := rfl
    rw [hfin, hrec]
    by_cases h : st.sessions[i].id = sessionId
    · rw [if_pos h] at hone
      have hid1 : (patchSavedMessage st sessionId p.tempId p.saved).sessions[i].id
          = sessionId := by
        rw [hone]
        exact h
      rw [if_pos hid1, if_pos h, hone]
      rfl
    · rw [if_neg h] at hone
      have hid1 : ¬ (patchSavedMessage st sessionId p.tempId p.saved).sessions[i].id
          = sessionId := by
        rw [hone]
        exact h
      rw [if_neg hid1, if_neg h, hone]

/-- C7: the success handler patches by matching the temporary message id, so
the final messages list of the target session is the same for every arrival
order of the remote append confirmations — any permutation `qs` of the batch
`ps` produces the session whose messages are the confirmed messages in the
original issue order — and, the store confirming sequentially issued appends
with ascending timestamps, that final list is ordered by timestamp
ascending.  (Hypotheses: the temporary ids of the batch are distinct, the
server-assigned ids are fresh, the session's optimistic messages are exactly
the batch's temporary messages in issue order, and the confirmed messages are
timestamp-ascending in issue order.) -/
theorem addMessage_confirmations_order_independent (st : SessionState) (sessionId : String)
    (ps qs : List MsgPatch) (hperm : qs.Perm ps)
    (hnodup : (ps.map MsgPatch.tempId).Nodup)
    (hfresh : patchFresh ps)
    (i : Nat) (hi : i < st.sessions.length)
    (hid : st.sessions[i].id = sessionId)
    (hmsgs : st.sessions[i].messages.map ChatMessage.id = ps.map MsgPatch.tempId)
    (hsorted : sortedByTimestamp (ps.map MsgPatch.saved) = true) :
    ∃ h2 : i < (applyPatchEvents st sessionId qs).sessions.length,
      (applyPatchEvents st sessionId qs).sessions[i]
        = { st.sessions[i] with messages := ps.map MsgPatch.saved }
      ∧ sortedByTimestamp ((applyPatchEvents st sessionId qs).sessions[i]).messages = true := by
  have hlen := (applyPatchEvents_getElem sessionId qs st).1
  have h2 : i < (applyPatchEvents st sessionId qs).sessions.length := by
    rw [hlen]
    exact hi
  have hfreshq : patchFresh qs := by
    intro a ha b hb
    exact hfresh a (hperm.subset ha) b (hperm.subset hb)
  have hnodupq : (qs.map MsgPatch.tempId).Nodup :=
    ((hperm.map MsgPatch.tempId).symm).nodup hnodup
  have hsubst : st.sessions[i].messages.map (substPatch qs)
      = st.sessions[i].messages.map (substPatch ps) := by
    apply List.map_congr_left
    intro m _
    show (lookupPatch qs m.id).getD m = (lookupPatch ps m.id).getD m
    rw [lookupPatch_perm hperm hnodupq m.id]
  have hmessages : applyPatches st.sessions[i].messages qs = ps.map MsgPatch.saved := by
    rw [applyPatches_eq_map qs _ hfreshq, hsubst,
      map_substPatch_saved ps _ hmsgs hnodup]
  have hget := (applyPatchEvents_getElem sessionId qs st).2 i hi h2
  rw [if_pos hid, hmessages] at hget
  refine ⟨h2, hget, ?_⟩
  rw [hget]
  exact hsorted

def sidG : String := "sG"

def tmpG1 : String := "g1"

def tmpG2 : String := "g2"

def midG1 : String := "m1"

def midG2 : String := "m2"

def tempMsgG1 : ChatMessage :=
  { id := tmpG1, role := Role.user, content := contT, timestamp := 10, rating := none }

def tempMsgG2 : ChatMessage :=
  { id := tmpG2, role := Role.assistant, content := contT, timestamp := 11, rating := none }

def savedG1 : ChatMessage :=
  { id := midG1, role := Role.user, content := contT, timestamp := 20, rating := none }

def savedG2 : ChatMessage :=
  { id := midG2, role := Role.assistant, content := contT, timestamp := 21, rating := none }

def patchG1 : MsgPatch := { tempId := tmpG1, saved := savedG1 }

def patchG2 : MsgPatch := { tempId := tmpG2, saved := savedG2 }

def sessG : ChatSession :=
  { id := sidG, title := titleT, messages := [tempMsgG1, tempMsgG2], selectedDocumentIds := [],
    createdAt := 0, updatedAt := 0 }

def stW7 : SessionState :=
  { sessions := [sessG], currentSession := none, messagesCache := [],
    pendingSessionCreations := [] }

/-- Witness for C7 at a concrete input: two appends whose confirmations arrive
in reverse order still leave the session's messages as the two confirmed
messages in issue order, sorted by timestamp. -/
theorem addMessage_confirmations_order_independent_witness :
    ([patchG2, patchG1].Perm [patchG1, patchG2])
    ∧ ∃ h2 : 0 < (applyPatchEvents stW7 sidG [patchG2, patchG1]).sessions.length,
        sortedByTimestamp
          ((applyPatchEvents stW7 sidG [patchG2, patchG1]).sessions[0]).messages = true := by
  have hperm : ([patchG2, patchG1]).Perm [patchG1, patchG2] := List.Perm.swap patchG1 patchG2 []
  have h := addMessage_confirmations_order_independent stW7 sidG [patchG1, patchG2]
    [patchG2, patchG1] hperm (by decide) (by unfold patchFresh; decide) 0 (by decide)
    (by decide) (by decide) (by decide)
  obtain ⟨h2, hmsgs2, hsort⟩ := h
  exact ⟨hperm, h2, hsort⟩

end NdaswUi
